import Mathlib

/-!
Shallow embedding of the HTTP endpoint/version/alias routing layer found in
`src/devops.io/api/api.go` (package `api`).  Handlers are opaque in the
source (`type Handler func(http.ResponseWriter, *http.Request)`); we identify
them by an opaque numeric id.  Go maps become association lists; map
assignment becomes `assocSet` and map lookup `assocFind`; method-chaining on
mutable pointers becomes explicit state passing.  A Go `panic` at
configuration time becomes an `Except.error`; a Go nil-map / out-of-range
runtime panic becomes an `Option.none`.
-/

namespace AutomationApi

/-- Opaque identity of a Go `Handler` closure. -/
abbrev HandlerId := Nat

/-- Go: `func (self *ApiServer) isLocal(r *http.Request) bool` prints the
remote address and returns `false` unconditionally. -/
def ApiServer.isLocal (_remoteAddr : String) : Bool := false

/-- Go: `func (self *ApiServer) isInternal(r *http.Request) bool` prints the
remote address and returns `false` unconditionally. -/
def ApiServer.isInternal (_remoteAddr : String) : Bool := false

/-- Go: `type Version struct { methods map[string]Handler }`. -/
structure Version where
  methods : List (String × HandlerId)
deriving Repr, DecidableEq

/-- Go: `type Alias struct { code map[string]string }`. -/
structure Alias where
  code : List (String × String)
deriving Repr, DecidableEq

/-- Go access-level constant `PUBLIC = 0`. -/
def PUBLIC : Int := 0
/-- Go access-level constant `PRIVATE = 1`. -/
def PRIVATE : Int := 1
/-- Go access-level constant `PROTECTED = 2`. -/
def PROTECTED : Int := 2

/-- Go: `type Api struct` — one endpoint.  The `owner *ApiServer` back
pointer is not a field here; operations that touch the owner are modelled at
the server level below. -/
structure Api where
  aliases : List (String × Alias)
  versions : List (String × Version)
  mainlines : List (String × String)
  level : Int
  enable : Bool
  name : String
  main : String
deriving Repr, DecidableEq

/-- An incoming HTTP request as far as this code inspects it: `r.Method`
and `r.RemoteAddr`. -/
structure Request where
  method : String
  remoteAddr : String
deriving Repr, DecidableEq

/-- Go map lookup `v, ok := m[k]` on an association list. -/
def assocFind {α : Type} (l : List (String × α)) (k : String) : Option α :=
  match l with
  | [] => none
  | (k', v) :: rest => if k' = k then some v else assocFind rest k

/-- Go map assignment `m[k] = v` on an association list: replace the first
binding of `k`, or append a fresh one. -/
def assocSet {α : Type} (l : List (String × α)) (k : String) (v : α) :
    List (String × α) :=
  match l with
  | [] => [(k, v)]
  | (k', v') :: rest =>
      if k' = k then (k, v) :: rest else (k', v') :: assocSet rest k v

/-- Go: `func (self *Api) isAllowed(r *http.Request) bool`. -/
def Api.isAllowed (self : Api) (r : Request) : Bool :=
  if !self.enable then false
  else if self.level = PUBLIC then true
  else if self.level = PRIVATE then ApiServer.isLocal r.remoteAddr
  else if self.level = PROTECTED then ApiServer.isInternal r.remoteAddr
  else false

/-- Go: `func (self *Api) version(code string) *Api` — create the version if
absent, then select it as the current configuration target `main`. -/
def Api.version (self : Api) (code : String) : Api :=
  let self :=
    if (assocFind self.versions code).isSome then self
    else { self with versions := assocSet self.versions code ⟨[]⟩ }
  { self with main := code }

/-- Go: `func (self *Api) handle(method string, handler Handler) *Api` —
panics unless a version has been selected; records the first default
version for `method` in `mainlines`; stores the handler under
`(main, method)`. -/
def Api.handle (self : Api) (method : String) (handler : HandlerId) :
    Except String Api :=
  if self.main.length = 0 then
    .error "Please specifiy version before doing anything"
  else
    match assocFind self.versions self.main with
    | none => .error "There is something wrong with creating new version"
    | some ver =>
      let self :=
        if (assocFind self.mainlines method).isSome then self
        else { self with mainlines := assocSet self.mainlines method self.main }
      .ok { self with
              versions := assocSet self.versions self.main
                ⟨assocSet ver.methods method handler⟩ }

/-- What a route registered with `self.owner.router.HandleFunc` dispatches
to: either the closure built inside `Api.alias` (capturing the endpoint and
the alias path) or the closure returned by `ApiServer.reorder` (capturing
the endpoint name and a pinned version code). -/
inductive RouteTarget where
  | aliasRoute (endpoint path : String)
  | reorder (endpoint code : String)
deriving Repr, DecidableEq

/-- Go: `type ApiServer struct` — the registry.  `router *mux.Router` is
modelled as the ordered list of `HandleFunc` registrations. -/
structure ApiServer where
  endpoints : List (String × Api)
  routes : List (String × RouteTarget)
  base : String
  agent : String
deriving Repr, DecidableEq

/-- Go: `func (self *ApiServer) newApi(name string) *Api`.  The `level`
field is never assigned there, so it keeps Go's zero value `0`
(= `PUBLIC`). -/
def ApiServer.newApi (name : String) : Api :=
  { aliases := [], versions := [], mainlines := [],
    level := 0, enable := true, name := name, main := "" }

/-- Go: `func (self *ApiServer) endpoint(endpoint string) *Api` — lazily
create the endpoint on first reference, then return the stored one.  The
returned `Api` is the second component. -/
def ApiServer.endpoint (self : ApiServer) (name : String) :
    ApiServer × Api :=
  match assocFind self.endpoints name with
  | some api => (self, api)
  | none =>
      let api := ApiServer.newApi name
      ({ self with endpoints := assocSet self.endpoints name api }, api)

/-- The outcome of running one registered route handler on a request:
either a concrete bound handler is invoked, or an envelope with `code` and
`message` is written through `nok` (which forwards to `pack`). -/
inductive DispatchResult where
  | invoke (h : HandlerId)
  | response (code : Int) (message : String)
deriving Repr, DecidableEq

/-- Go: `func (self *ApiServer) reorder(endpoint, code string) Handler` —
the direct-version dispatch closure: endpoint lookup, version lookup,
method lookup, access check; every failure emits
`nok(w)(404, "Not found " + endpoint)`. -/
def ApiServer.reorder (self : ApiServer) (endpoint code : String)
    (r : Request) : DispatchResult :=
  match assocFind self.endpoints endpoint with
  | none => .response 404 ("Not found " ++ endpoint)
  | some api =>
    match assocFind api.versions code with
    | none => .response 404 ("Not found " ++ endpoint)
    | some ver =>
      match assocFind ver.methods r.method with
      | none => .response 404 ("Not found " ++ endpoint)
      | some handler =>
        if api.isAllowed r then .invoke handler
        else .response 404 ("Not found " ++ endpoint)

/-- The closure registered by `Api.alias` for path `path`, run against the
live endpoint state `self` at request time.  Go reads
`self.aliases[path].code[r.Method]`; a missing alias entry would be a nil
pointer dereference (`none` here — unreachable for registered routes), a
method absent from the snapshot yields Go's zero value `""`. -/
def Api.aliasHandle (self : Api) (path : String) (r : Request) :
    Option DispatchResult :=
  match assocFind self.aliases path with
  | none => none
  | some al =>
    let code := (assocFind al.code r.method).getD ""
    match assocFind self.versions code with
    | none => some (.response 404 ("Not found " ++ path))
    | some ver =>
      match assocFind ver.methods r.method with
      | none => some (.response 404 ("Not found " ++ path))
      | some handler =>
        if self.isAllowed r then some (.invoke handler)
        else some (.response 404 ("Not found " ++ path))

/-- Go: `func (self *Api) alias(path string) *Api` — panics on a duplicate
alias path on this endpoint; otherwise snapshots `mainlines` entry by entry
into a fresh `Alias` and registers the alias closure with the owner's
router.  Modelled at server level because it touches `self.owner.router`;
`name` is the endpoint the method is invoked on. -/
def ApiServer.aliasOp (self : ApiServer) (name path : String) :
    Except String ApiServer :=
  match assocFind self.endpoints name with
  | none => .error "alias on unknown endpoint"
  | some api =>
    if (assocFind api.aliases path).isSome then
      .error ("redefine alias " ++ path)
    else
      let api' := { api with aliases := assocSet api.aliases path ⟨api.mainlines⟩ }
      .ok { self with
              endpoints := assocSet self.endpoints name api',
              routes := self.routes ++ [(path, .aliasRoute name path)] }

/-- The canonical per-version destination built in `Api.mock`:
`"/" + base + "/" + ver + path` when `base` is non-empty, else
`"/" + ver + path`. -/
def mockDest (base ver path : String) : String :=
  if base.length > 0 then "/" ++ base ++ "/" ++ ver ++ path
  else "/" ++ ver ++ path

/-- Go: `func (self *Api) mock(path string) *Api` — for every version of
the endpoint register a `reorder` route at `mockDest`, then declare an
alias at `"/" + base + path` (or bare `path` when `base` is empty).
Modelled at server level; `name` is the endpoint the method is invoked
on. -/
def ApiServer.mock (self : ApiServer) (name path : String) :
    Except String ApiServer :=
  match assocFind self.endpoints name with
  | none => .error "mock on unknown endpoint"
  | some api =>
    let newRoutes := api.versions.map (fun p =>
      (mockDest self.base p.1 path, RouteTarget.reorder name p.1))
    let self' := { self with routes := self.routes ++ newRoutes }
    let aliasPath :=
      if self'.base.length > 0 then "/" ++ self'.base ++ path else path
    self'.aliasOp name aliasPath

/-- Go helper `pack`: the lambda writing the envelope
`\x7b"code": c, "data": m\x7d` with `m` embedded verbatim when it is brace-
or bracket-delimited, quoted otherwise.  Go indexes `message[0]` and
`message[len(message)-1]`, which panics on the empty string: `none` models
that panic. -/
def pack (code : Int) (message : String) : Option String :=
  if message.length = 0 then none
  else if message.front = '\x7b' ∧ message.back = '\x7d' then
    some ("\x7b\"code\": " ++ toString code ++ ", \"data\": " ++ message ++ "\x7d")
  else if message.front = '[' ∧ message.back = ']' then
    some ("\x7b\"code\": " ++ toString code ++ ", \"data\": " ++ message ++ "\x7d")
  else
    some ("\x7b\"code\": " ++ toString code ++ ", \"data\": \"" ++ message ++ "\"\x7d")

/-- Go: `ApiServer.nok` forwards its code and message to `pack`
unchanged. -/
def ApiServer.nok (code : Int) (message : String) : Option String :=
  pack code message

/-- Go: `ApiServer.ok` forwards the message to `pack` with code 200. -/
def ApiServer.ok (message : String) : Option String :=
  pack 200 message

def c6api : Api := (ApiServer.newApi "e").version "v1"

def c6api' : Api :=
  { aliases := [], versions := [("v1", ⟨[("PUT", 1)]⟩)],
    mainlines := [("PUT", "v1")], level := 0, enable := true,
    name := "e", main := "v1" }

def c10srv : ApiServer :=
  { endpoints := [("e", ApiServer.newApi "e")], routes := [], base := "",
    agent := "" }

def c3srv : ApiServer :=
  { endpoints :=
      [("e", { aliases := [], versions := [("v1", ⟨[("PUT", 1)]⟩)],
               mainlines := [("PUT", "v1")], level := 0, enable := true,
               name := "e", main := "v1" })],
    routes := [], base := "", agent := "" }

def c4api : Api :=
  { aliases := [], versions := [("v1", ⟨[("GET", 7)]⟩)],
    mainlines := [("GET", "v1")], level := 1, enable := true,
    name := "e", main := "v1" }

def c4srv : ApiServer :=
  { endpoints := [("e", c4api)], routes := [], base := "", agent := "" }

def c4empty : ApiServer :=
  { endpoints := [], routes := [], base := "", agent := "" }

def c2base : ApiServer :=
  { endpoints := [("e", ApiServer.newApi "e"), ("f", ApiServer.newApi "f")],
    routes := [], base := "", agent := "" }

def c2final : ApiServer :=
  { endpoints :=
      [("e", { aliases := [("/q", ⟨[]⟩)], versions := [], mainlines := [],
               level := 0, enable := true, name := "e", main := "" }),
       ("f", { aliases := [("/q", ⟨[]⟩)], versions := [], mainlines := [],
               level := 0, enable := true, name := "f", main := "" })],
    routes := [("/q", .aliasRoute "e" "/q"), ("/q", .aliasRoute "f" "/q")],
    base := "", agent := "" }

def c2dupApi : Api :=
  { aliases := [("/q", ⟨[]⟩)], versions := [], mainlines := [],
    level := 0, enable := true, name := "e", main := "" }

def c2dupSrv : ApiServer :=
  { endpoints := [("e", c2dupApi)], routes := [], base := "", agent := "" }

def c7api : Api :=
  { aliases := [], versions := [("v1", ⟨[("PUT", 1)]⟩), ("v2", ⟨[("PUT", 2)]⟩)],
    mainlines := [("PUT", "v1")], level := 0, enable := true,
    name := "e", main := "v2" }

def c7srv : ApiServer :=
  { endpoints := [("e", c7api)], routes := [], base := "api", agent := "" }

def c1api : Api :=
  { aliases := [], versions := [("v1", ⟨[("PUT", 1)]⟩)],
    mainlines := [("PUT", "v1")], level := 0, enable := true,
    name := "e", main := "v1" }

def c1srv : ApiServer :=
  { endpoints := [("e", c1api)], routes := [], base := "", agent := "" }

/-! ### Association-list lemmas -/

theorem assocFind_set_self {α : Type} (l : List (String × α)) (k : String)
    (v : α) : assocFind (assocSet l k v) k = some v := by
  induction l with
  | nil => simp [assocSet, assocFind]
  | cons hd tl ih =>
    obtain ⟨k', v'⟩ := hd
    by_cases h : k' = k <;> simp [assocSet, assocFind, h, ih]

theorem assocFind_set_ne {α : Type} (l : List (String × α)) (k k' : String)
    (v : α) (h : k ≠ k') :
    assocFind (assocSet l k v) k' = assocFind l k' := by
  induction l with
  | nil => simp [assocSet, assocFind, h]
  | cons hd tl ih =>
    obtain ⟨a, b⟩ := hd
    by_cases ha : a = k
    · subst ha
      simp [assocSet, assocFind, h]
    · simp [assocSet, assocFind, ha, ih]

theorem length_ne_zero_of_ne_empty (s : String) (h : s ≠ "") :
    ¬ s.length = 0 := by
  intro h0
  apply h
  cases s with
  | mk data =>
    cases data with
    | nil => rfl
    | cons c cs => simp [String.length] at h0

theorem notFound_length_ne_zero (s : String) :
    ¬ ("Not found " ++ s).length = 0 := by
  rw [String.length_append]
  have h : "Not found ".length = 10 := rfl
  omega

theorem pack_isSome (c : Int) (m : String) (h : ¬ m.length = 0) :
    (pack c m).isSome = true := by
  unfold pack
  split_ifs <;> simp_all

/-- Every branch of `ApiServer.reorder` either invokes a bound handler or
emits the single response `404 / "Not found " ++ endpoint`. -/
theorem reorder_shape (srv : ApiServer) (e v : String) (r : Request) :
    (∃ h, srv.reorder e v r = .invoke h) ∨
    srv.reorder e v r = .response 404 ("Not found " ++ e) := by
  unfold ApiServer.reorder
  split
  · right; rfl
  · split
    · right; rfl
    · split
      · right; rfl
      · split
        · left; exact ⟨_, rfl⟩
        · right; rfl

/-- Every branch of the alias closure either dereferences a nil alias
(`none`), invokes a bound handler, or emits the single response
`404 / "Not found " ++ path`. -/
theorem aliasHandle_shape (api : Api) (p : String) (r : Request) :
    api.aliasHandle p r = none ∨
    (∃ h, api.aliasHandle p r = some (.invoke h)) ∨
    api.aliasHandle p r = some (.response 404 ("Not found " ++ p)) := by
  unfold Api.aliasHandle
  split
  · left; rfl
  · right
    by_cases hA : api.isAllowed r = true
    · simp only [hA, if_true]
      split
      · right; rfl
      · split
        · right; rfl
        · left; exact ⟨_, rfl⟩
    · simp only [hA, if_false]
      right
      split
      · rfl
      · split <;> rfl

/-- Claim C8 — Response-envelope formatting: for every code `c` and non-empty
message `m`, `pack` produces the JSON object with code `c` where `m` is
embedded verbatim as `data` exactly when `m` starts with a left brace and
ends with a right brace, or starts with `[` and ends with `]`; otherwise
`m` is surrounded by double quotes. -/
theorem C8_pack_envelope (code : Int) (m : String) (hm : m ≠ "") :
    pack code m = some (
      if (m.front = '\x7b' ∧ m.back = '\x7d') ∨ (m.front = '[' ∧ m.back = ']') then
        "\x7b\"code\": " ++ toString code ++ ", \"data\": " ++ m ++ "\x7d"
      else
        "\x7b\"code\": " ++ toString code ++ ", \"data\": \"" ++ m ++ "\"\x7d") := by
  have hlen := length_ne_zero_of_ne_empty m hm
  unfold pack
  by_cases h1 : m.front = '\x7b' ∧ m.back = '\x7d'
  · simp [hlen, h1]
  · by_cases h2 : m.front = '[' ∧ m.back = ']'
    · simp [hlen, h1, h2]
    · simp [hlen, h1, h2]

theorem C8_witness :
    pack 200 "pong" = some "\x7b\"code\": 200, \"data\": \"pong\"\x7d" := by
  have h := C8_pack_envelope 200 "pong" (by decide)
  simpa using h

/-- Claim C9 — `pack` is partial in the message: the empty message hits the
out-of-range index (`none`), while every envelope emitted by the dispatch
path (direct-version dispatch and the alias closure) carries a non-empty
`"Not found " ++ _` message on which `pack` succeeds. -/
theorem C9_pack_empty_message (code : Int) :
    pack code "" = none
    ∧ (∀ (srv : ApiServer) (e v : String) (r : Request) (c : Int) (m : String),
        srv.reorder e v r = .response c m → (pack c m).isSome = true)
    ∧ (∀ (api : Api) (p : String) (r : Request) (c : Int) (m : String),
        api.aliasHandle p r = some (.response c m) → (pack c m).isSome = true) := by
  refine ⟨rfl, ?_, ?_⟩
  · intro srv e v r c m hr
    rcases reorder_shape srv e v r with ⟨h, hinv⟩ | hresp
    · rw [hinv] at hr; exact absurd hr (by simp)
    · rw [hresp] at hr
      obtain ⟨hc, hm⟩ : (404 : Int) = c ∧ ("Not found " ++ e) = m := by
        constructor <;> injection hr.symm <;> simp_all
      subst hc; subst hm
      exact pack_isSome _ _ (notFound_length_ne_zero e)
  · intro api p r c m hr
    rcases aliasHandle_shape api p r with hnone | ⟨h, hinv⟩ | hresp
    · rw [hnone] at hr; exact absurd hr (by simp)
    · rw [hinv] at hr; exact absurd hr (by simp)
    · rw [hresp] at hr
      obtain ⟨hc, hm⟩ : (404 : Int) = c ∧ ("Not found " ++ p) = m := by
        have h2 := Option.some.inj hr
        exact ⟨by injection h2, by injection h2⟩
      subst hc; subst hm
      exact pack_isSome _ _ (notFound_length_ne_zero p)

theorem C9_witness :
    pack 404 "" = none
    ∧ (pack 404 ("Not found " ++ "e")).isSome = true := by
  refine ⟨(C9_pack_empty_message 404).1, ?_⟩
  exact (C9_pack_empty_message 404).2.1
    { endpoints := [], routes := [], base := "", agent := "" }
    "e" "v1" { method := "GET", remoteAddr := "addr" } 404
    ("Not found " ++ "e") (by rfl)

theorem version_main (api : Api) (code : String) :
    (api.version code).main = code := by
  unfold Api.version
  by_cases h : (assocFind api.versions code).isSome = true <;> simp [h]

theorem version_find_isSome (api : Api) (code : String) :
    (assocFind (api.version code).versions code).isSome = true := by
  unfold Api.version
  by_cases h : (assocFind api.versions code).isSome = true
  · simp [h]
  · simp [h, assocFind_set_self]

/-- Claim C5 — Version must precede handler binding: with no current version
(`main` empty) `handle` raises the configuration error and stores nothing
(no new endpoint state is produced); a successful binding implies a version
had been selected; and after `version code` (any non-empty key) the same
binding succeeds. -/
theorem C5_version_before_binding (api : Api) (method : String)
    (hdl : HandlerId) (code : String) :
    (api.main = "" → api.handle method hdl =
        .error "Please specifiy version before doing anything")
    ∧ (∀ api', api.handle method hdl = .ok api' → api.main ≠ "")
    ∧ (code ≠ "" → ∃ api', (api.version code).handle method hdl = .ok api') := by
  refine ⟨?_, ?_, ?_⟩
  · intro hm
    unfold Api.handle
    simp [hm]
  · intro api' hok hm
    unfold Api.handle at hok
    simp [hm] at hok
  · intro hc
    have hm := version_main api code
    have hv := version_find_isSome api code
    unfold Api.handle
    rw [hm]
    simp only [length_ne_zero_of_ne_empty code hc, if_false]
    rcases Option.isSome_iff_exists.mp hv with ⟨ver, hver⟩
    rw [hver]
    by_cases hml : (assocFind (api.version code).mainlines method).isSome = true
    · simp only [hml, if_true]
      exact ⟨_, rfl⟩
    · simp only [hml, if_false]
      exact ⟨_, rfl⟩

theorem C5_witness :
    (ApiServer.newApi "e").handle "PUT" 1 =
      .error "Please specifiy version before doing anything"
    ∧ ∃ api', ((ApiServer.newApi "e").version "v1").handle "PUT" 1 = .ok api' :=
  ⟨(C5_version_before_binding (ApiServer.newApi "e") "PUT" 1 "v1").1 rfl,
   (C5_version_before_binding (ApiServer.newApi "e") "PUT" 1 "v1").2.2 (by decide)⟩

/-- Claim C6 — Default-version bookkeeping: a successful `handle M hdl` makes
the current version M's default when M had none, never overwrites an
existing default entry for M, and leaves every version other than the
current one untouched. -/
theorem C6_default_version_bookkeeping (api api' : Api) (M : String)
    (hdl : HandlerId) (hok : api.handle M hdl = .ok api') :
    (assocFind api.mainlines M = none →
        assocFind api'.mainlines M = some api.main)
    ∧ (∀ V1, assocFind api.mainlines M = some V1 →
        assocFind api'.mainlines M = some V1)
    ∧ (∀ V2, V2 ≠ api.main →
        assocFind api'.versions V2 = assocFind api.versions V2) := by
  unfold Api.handle at hok
  by_cases hm : api.main.length = 0
  · simp [hm] at hok
  · simp only [hm, if_false] at hok
    rcases hv : assocFind api.versions api.main with _ | ver
    · rw [hv] at hok; exact absurd hok (by simp)
    · rw [hv] at hok
      by_cases hml : (assocFind api.mainlines M).isSome = true
      · simp only [hml, if_true] at hok
        injection hok with he
        refine ⟨?_, ?_, ?_⟩
        · intro hnone; rw [hnone] at hml; simp at hml
        · intro V1 h1; rw [← he]; simpa using h1
        · intro V2 hne
          rw [← he]
          exact assocFind_set_ne _ _ _ _ (Ne.symm hne)
      · simp only [hml, if_false] at hok
        injection hok with he
        refine ⟨?_, ?_, ?_⟩
        · intro _
          rw [← he]
          exact assocFind_set_self _ _ _
        · intro V1 h1; rw [h1] at hml; simp at hml
        · intro V2 hne
          rw [← he]
          exact assocFind_set_ne _ _ _ _ (Ne.symm hne)

theorem C6_witness :
    assocFind c6api'.mainlines "PUT" = some c6api.main
    ∧ assocFind c6api'.versions "v2" = assocFind c6api.versions "v2" :=
  ⟨(C6_default_version_bookkeeping c6api c6api' "PUT" 1 (by rfl)).1 (by decide),
   (C6_default_version_bookkeeping c6api c6api' "PUT" 1 (by rfl)).2.2 "v2"
     (by decide)⟩

/-- Claim C10 — A freshly created endpoint starts enabled, at `PUBLIC` level
(Go's zero value for the unassigned `level` field), with no current
version and empty version/alias/default maps; the access policy therefore
admits every request to it; and referencing an existing name again returns
the stored endpoint with the registry unchanged. -/
theorem C10_fresh_endpoint (n : String) (srv : ApiServer) (api : Api)
    (r : Request) :
    (ApiServer.newApi n).enable = true
    ∧ (ApiServer.newApi n).level = PUBLIC
    ∧ (ApiServer.newApi n).main = ""
    ∧ (ApiServer.newApi n).versions = []
    ∧ (ApiServer.newApi n).aliases = []
    ∧ (ApiServer.newApi n).mainlines = []
    ∧ (ApiServer.newApi n).isAllowed r = true
    ∧ (assocFind srv.endpoints n = some api → srv.endpoint n = (srv, api))
    ∧ (assocFind srv.endpoints n = none →
        srv.endpoint n =
          ({ srv with endpoints := assocSet srv.endpoints n (ApiServer.newApi n) },
           ApiServer.newApi n)) := by
  refine ⟨rfl, rfl, rfl, rfl, rfl, rfl, ?_, ?_, ?_⟩
  · simp [Api.isAllowed, ApiServer.newApi, PUBLIC]
  · intro h; unfold ApiServer.endpoint; rw [h]
  · intro h; unfold ApiServer.endpoint; rw [h]

theorem C10_witness :
    (ApiServer.newApi "q").isAllowed { method := "GET", remoteAddr := "a" } = true
    ∧ c10srv.endpoint "e" = (c10srv, ApiServer.newApi "e") :=
  ⟨(C10_fresh_endpoint "q" c10srv (ApiServer.newApi "e")
      { method := "GET", remoteAddr := "a" }).2.2.2.2.2.2.1,
   (C10_fresh_endpoint "e" c10srv (ApiServer.newApi "e")
      { method := "GET", remoteAddr := "a" }).2.2.2.2.2.2.2.1 (by decide)⟩

/-- Inversion: direct-version dispatch invokes a handler only when all four
stages (endpoint, version, method, access) succeed. -/
theorem reorder_invoke_inv (srv : ApiServer) (e v : String) (r : Request)
    (hdl : HandlerId) (h : srv.reorder e v r = .invoke hdl) :
    ∃ api ver, assocFind srv.endpoints e = some api
      ∧ assocFind api.versions v = some ver
      ∧ assocFind ver.methods r.method = some hdl
      ∧ api.isAllowed r = true := by
  unfold ApiServer.reorder at h
  split at h
  · exact absurd h (by simp)
  · rename_i api hapi
    split at h
    · exact absurd h (by simp)
    · rename_i ver hver
      split at h
      · exact absurd h (by simp)
      · rename_i hdl' hhdl
        by_cases hA : api.isAllowed r = true
        · rw [if_pos hA] at h
          injection h with hh
          exact ⟨api, ver, hapi, hver, hh ▸ hhdl, hA⟩
        · rw [if_neg hA] at h
          exact absurd h (by simp)

/-- Converse: when all four stages succeed, the handler is invoked. -/
theorem reorder_invoke_of (srv : ApiServer) (e v : String) (r : Request)
    (hdl : HandlerId) (api : Api) (ver : Version)
    (h1 : assocFind srv.endpoints e = some api)
    (h2 : assocFind api.versions v = some ver)
    (h3 : assocFind ver.methods r.method = some hdl)
    (h4 : api.isAllowed r = true) :
    srv.reorder e v r = .invoke hdl := by
  simp [ApiServer.reorder, h1, h2, h3, h4]

/-- Claim C3 — Uniform miss shape in direct-version dispatch: the handler is
invoked exactly when endpoint lookup, version lookup, method lookup and the
access policy all succeed, and otherwise — whichever of the four stages
failed — the result is the one identical 404 envelope
`"Not found " ++ endpoint`, on which `pack` succeeds. -/
theorem C3_uniform_miss_shape (srv : ApiServer) (endpoint code : String)
    (r : Request) :
    (∀ hdl : HandlerId, srv.reorder endpoint code r = .invoke hdl ↔
      ∃ api ver, assocFind srv.endpoints endpoint = some api
        ∧ assocFind api.versions code = some ver
        ∧ assocFind ver.methods r.method = some hdl
        ∧ api.isAllowed r = true)
    ∧ ((∃ hdl, srv.reorder endpoint code r = .invoke hdl)
        ∨ srv.reorder endpoint code r = .response 404 ("Not found " ++ endpoint))
    ∧ (pack 404 ("Not found " ++ endpoint)).isSome = true := by
  refine ⟨?_, reorder_shape srv endpoint code r,
          pack_isSome _ _ (notFound_length_ne_zero endpoint)⟩
  intro hdl
  constructor
  · exact reorder_invoke_inv srv endpoint code r hdl
  · rintro ⟨api, ver, h1, h2, h3, h4⟩
    exact reorder_invoke_of srv endpoint code r hdl api ver h1 h2 h3 h4

theorem C3_witness :
    ((∃ hdl, c3srv.reorder "missing" "v1" { method := "PUT", remoteAddr := "a" }
        = .invoke hdl)
      ∨ c3srv.reorder "missing" "v1" { method := "PUT", remoteAddr := "a" }
          = .response 404 ("Not found " ++ "missing"))
    ∧ ((∃ hdl, c3srv.reorder "e" "v2" { method := "PUT", remoteAddr := "a" }
        = .invoke hdl)
      ∨ c3srv.reorder "e" "v2" { method := "PUT", remoteAddr := "a" }
          = .response 404 ("Not found " ++ "e"))
    ∧ ((∃ hdl, c3srv.reorder "e" "v1" { method := "GET", remoteAddr := "a" }
        = .invoke hdl)
      ∨ c3srv.reorder "e" "v1" { method := "GET", remoteAddr := "a" }
          = .response 404 ("Not found " ++ "e")) :=
  ⟨(C3_uniform_miss_shape c3srv "missing" "v1" { method := "PUT", remoteAddr := "a" }).2.1,
   (C3_uniform_miss_shape c3srv "e" "v2" { method := "PUT", remoteAddr := "a" }).2.1,
   (C3_uniform_miss_shape c3srv "e" "v1" { method := "GET", remoteAddr := "a" }).2.1⟩

/-- Claim C4 — Access fail-closed for `PRIVATE`: in the source `isLocal`
rejects every request, so no request at `PRIVATE` level is ever allowed
(the claim's "allowed only if trusted identity AND local origin" holds —
nothing at all is allowed), and every request against a `PRIVATE` endpoint
resolves to exactly the not-found response that an unknown endpoint of the
same name would produce — never a distinguishing forbidden response. -/
theorem C4_private_fail_closed (srv srv' : ApiServer) (name code : String)
    (api : Api) (r : Request)
    (hep : assocFind srv.endpoints name = some api)
    (hlvl : api.level = PRIVATE)
    (habsent : assocFind srv'.endpoints name = none) :
    api.isAllowed r = false
    ∧ srv.reorder name code r = .response 404 ("Not found " ++ name)
    ∧ srv.reorder name code r = srv'.reorder name code r := by
  have hallow : api.isAllowed r = false := by
    unfold Api.isAllowed
    rw [hlvl]
    cases api.enable <;>
      simp [PRIVATE, PUBLIC, PROTECTED, ApiServer.isLocal]
  have hre : srv.reorder name code r = .response 404 ("Not found " ++ name) := by
    rcases reorder_shape srv name code r with ⟨hdl, hinv⟩ | hresp
    · exfalso
      rcases reorder_invoke_inv srv name code r hdl hinv with
        ⟨api2, ver, hapi2, _, _, hA⟩
      rw [hep] at hapi2
      injection hapi2 with he
      rw [← he] at hA
      rw [hallow] at hA
      exact Bool.false_ne_true hA
    · exact hresp
  refine ⟨hallow, hre, ?_⟩
  rw [hre]
  unfold ApiServer.reorder
  rw [habsent]

theorem C4_witness :
    c4api.isAllowed { method := "GET", remoteAddr := "127.0.0.1" } = false
    ∧ c4srv.reorder "e" "v1" { method := "GET", remoteAddr := "127.0.0.1" }
        = .response 404 ("Not found " ++ "e")
    ∧ c4srv.reorder "e" "v1" { method := "GET", remoteAddr := "127.0.0.1" }
        = c4empty.reorder "e" "v1" { method := "GET", remoteAddr := "127.0.0.1" } :=
  C4_private_fail_closed c4srv c4empty "e" "v1" c4api
    { method := "GET", remoteAddr := "127.0.0.1" } (by rfl) (by rfl) (by rfl)

/-- Claim C2, counterexample — the claim as stated is false on the code: after
declaring alias `"/q"` on endpoint `"e"`, declaring the same path `"/q"` on
endpoint `"f"` — a duplicate elsewhere in the registry — is accepted
(`.ok`, both aliases end up registered), not a configuration panic:
`Api.alias` consults only the invoked endpoint's own alias table. -/
theorem C2_counterexample :
    (c2base.aliasOp "e" "/q").bind (fun s1 => s1.aliasOp "f" "/q")
      = .ok c2final := by
  rfl

/-- Claim C2, amended — Alias uniqueness holds per endpoint: declaring an
alias whose path already exists as an alias on the same endpoint fails
configuration with the fatal error `redefine alias <path>` (a Go panic);
duplicates on different endpoints are not detected. -/
theorem C2_alias_unique_per_endpoint (srv : ApiServer) (name path : String)
    (api : Api)
    (hep : assocFind srv.endpoints name = some api)
    (hdup : (assocFind api.aliases path).isSome = true) :
    srv.aliasOp name path = .error ("redefine alias " ++ path) := by
  unfold ApiServer.aliasOp
  rw [hep]
  simp [hdup]

theorem C2_witness :
    c2dupSrv.aliasOp "e" "/q" = .error ("redefine alias " ++ "/q") :=
  C2_alias_unique_per_endpoint c2dupSrv "e" "/q" c2dupApi (by rfl) (by rfl)

/-- Claim C7 — Mounting versioned paths: `mock` registers, for each version
key on the endpoint, exactly one route `mockDest base ver path` (the
`{basePath}/{versionKey}{suffixPath}` shape) bound to direct-version
dispatch pinned to that version, and then declares one alias at
`{basePath}{suffixPath}` whose snapshot is the endpoint's default
method-to-version map as it stands at mounting time. -/
theorem C7_mount_versioned_paths (srv : ApiServer) (name path : String)
    (api : Api)
    (hep : assocFind srv.endpoints name = some api)
    (hfresh : assocFind api.aliases
        (if srv.base.length > 0 then "/" ++ srv.base ++ path else path) = none) :
    ∃ srv' api',
      srv.mock name path = .ok srv'
      ∧ srv'.routes = srv.routes
          ++ api.versions.map (fun p =>
              (mockDest srv.base p.1 path, RouteTarget.reorder name p.1))
          ++ [((if srv.base.length > 0 then "/" ++ srv.base ++ path else path),
               RouteTarget.aliasRoute name
                 (if srv.base.length > 0 then "/" ++ srv.base ++ path else path))]
      ∧ assocFind srv'.endpoints name = some api'
      ∧ api'.aliases = assocSet api.aliases
          (if srv.base.length > 0 then "/" ++ srv.base ++ path else path)
          ⟨api.mainlines⟩
      ∧ assocFind api'.aliases
          (if srv.base.length > 0 then "/" ++ srv.base ++ path else path)
          = some ⟨api.mainlines⟩ := by
  refine ⟨{ srv with
      endpoints := (assocSet srv.endpoints name { api with
        aliases := (assocSet api.aliases (if srv.base.length > 0 then
          "/" ++ srv.base ++ path else path) ⟨api.mainlines⟩) }),
      routes := ((srv.routes ++ api.versions.map (fun p =>
        (mockDest srv.base p.1 path, RouteTarget.reorder name p.1))) ++
        [((if srv.base.length > 0 then "/" ++ srv.base ++ path else path),
          RouteTarget.aliasRoute name (if srv.base.length > 0 then
            "/" ++ srv.base ++ path else path))]) },
    { api with
      aliases := (assocSet api.aliases (if srv.base.length > 0 then
        "/" ++ srv.base ++ path else path) ⟨api.mainlines⟩) },
    ?_, ?_, ?_, ?_, ?_⟩
  · unfold ApiServer.mock ApiServer.aliasOp
    simp [hep, hfresh]
  · simp [List.append_assoc]
  · exact assocFind_set_self _ _ _
  · rfl
  · exact assocFind_set_self _ _ _

theorem C7_witness :
    ∃ srv' api',
      c7srv.mock "e" "/query" = .ok srv'
      ∧ srv'.routes = c7srv.routes
          ++ c7api.versions.map (fun p =>
              (mockDest c7srv.base p.1 "/query", RouteTarget.reorder "e" p.1))
          ++ [((if c7srv.base.length > 0 then "/" ++ c7srv.base ++ "/query"
                else "/query"),
               RouteTarget.aliasRoute "e"
                 (if c7srv.base.length > 0 then "/" ++ c7srv.base ++ "/query"
                  else "/query"))]
      ∧ assocFind srv'.endpoints "e" = some api'
      ∧ api'.aliases = assocSet c7api.aliases
          (if c7srv.base.length > 0 then "/" ++ c7srv.base ++ "/query"
           else "/query")
          ⟨c7api.mainlines⟩
      ∧ assocFind api'.aliases
          (if c7srv.base.length > 0 then "/" ++ c7srv.base ++ "/query"
           else "/query")
          = some ⟨c7api.mainlines⟩ :=
  C7_mount_versioned_paths c7srv "e" "/query" c7api (by rfl) (by rfl)

theorem isAllowed_public (a : Api) (r : Request) (he : a.enable = true)
    (hl : a.level = PUBLIC) : a.isAllowed r = true := by
  unfold Api.isAllowed
  rw [he, hl]
  simp

/-- Claim C1 — Alias snapshot immutability: take an endpoint where method `M`
defaults to `V1` and already has a handler `h1` stored under `(V1, M)`;
declare alias `A` (snapshotting the defaults), then select a new version
`V2` and bind `M` to `h2` under it.  Dispatch through `A` for `M` still
invokes `h1`, the handler stored under `V1`; direct-version dispatch pinned
to `V2` invokes `h2`; and the alias holds its own copy of the
method-to-version map exactly as it stood at alias-creation time. -/
theorem C1_alias_snapshot_immutable
    (srv : ApiServer) (E A M V1 V2 : String) (api : Api) (ver1 : Version)
    (h1 h2 : HandlerId) (r : Request)
    (hep : assocFind srv.endpoints E = some api)
    (hdef : assocFind api.mainlines M = some V1)
    (hv1 : assocFind api.versions V1 = some ver1)
    (hm1 : assocFind ver1.methods M = some h1)
    (hA : assocFind api.aliases A = none)
    (hv2 : assocFind api.versions V2 = none)
    (hne : V2 ≠ V1) (hV2 : V2 ≠ "")
    (hen : api.enable = true) (hlvl : api.level = PUBLIC)
    (hr : r.method = M) :
    ∃ srv1 api1 api2,
      srv.aliasOp E A = .ok srv1
      ∧ assocFind srv1.endpoints E = some api1
      ∧ (api1.version V2).handle M h2 = .ok api2
      ∧ assocFind api2.aliases A = some ⟨api.mainlines⟩
      ∧ api2.aliasHandle A r = some (.invoke h1)
      ∧ ({ srv1 with endpoints := assocSet srv1.endpoints E api2 }).reorder
          E V2 r = .invoke h2 := by
  refine ⟨{ srv with
      endpoints := assocSet srv.endpoints E
        { api with aliases := assocSet api.aliases A ⟨api.mainlines⟩ },
      routes := srv.routes ++ [(A, .aliasRoute E A)] },
    { api with aliases := assocSet api.aliases A ⟨api.mainlines⟩ },
    { api with
        aliases := assocSet api.aliases A ⟨api.mainlines⟩,
        versions := assocSet (assocSet api.versions V2 ⟨[]⟩) V2
          ⟨assocSet ([] : List (String × HandlerId)) M h2⟩,
        main := V2 },
    ?_, ?_, ?_, ?_, ?_, ?_⟩
  · unfold ApiServer.aliasOp
    rw [hep]
    simp [hA]
  · exact assocFind_set_self _ _ _
  · unfold Api.version Api.handle
    simp only [hv2, Option.isSome_none, Bool.false_eq_true, if_false]
    simp only [length_ne_zero_of_ne_empty V2 hV2, if_false]
    rw [assocFind_set_self]
    simp only [hdef, Option.isSome_some, if_true]
  · exact assocFind_set_self _ _ _
  · have hA2 : ({ api with
        aliases := assocSet api.aliases A ⟨api.mainlines⟩,
        versions := assocSet (assocSet api.versions V2 ⟨[]⟩) V2
          ⟨assocSet ([] : List (String × HandlerId)) M h2⟩,
        main := V2 } : Api).isAllowed r = true :=
      isAllowed_public _ r hen hlvl
    simp only [Api.aliasHandle, assocFind_set_self, hr, hdef,
               Option.getD_some, assocFind_set_ne _ _ _ _ hne, hv1, hm1,
               hA2, eq_self_iff_true, if_true]
  · have hA2 : ({ api with
        aliases := assocSet api.aliases A ⟨api.mainlines⟩,
        versions := assocSet (assocSet api.versions V2 ⟨[]⟩) V2
          ⟨assocSet ([] : List (String × HandlerId)) M h2⟩,
        main := V2 } : Api).isAllowed r = true :=
      isAllowed_public _ r hen hlvl
    simp only [ApiServer.reorder, assocFind_set_self, hr, hA2,
               eq_self_iff_true, if_true]

theorem C1_witness :
    ∃ srv1 api1 api2,
      c1srv.aliasOp "e" "/q" = .ok srv1
      ∧ assocFind srv1.endpoints "e" = some api1
      ∧ (api1.version "v2").handle "PUT" 2 = .ok api2
      ∧ assocFind api2.aliases "/q" = some ⟨c1api.mainlines⟩
      ∧ api2.aliasHandle "/q" { method := "PUT", remoteAddr := "a" }
          = some (.invoke 1)
      ∧ ({ srv1 with endpoints := assocSet srv1.endpoints "e" api2 }).reorder
          "e" "v2" { method := "PUT", remoteAddr := "a" } = .invoke 2 :=
  C1_alias_snapshot_immutable c1srv "e" "/q" "PUT" "v1" "v2" c1api
    ⟨[("PUT", 1)]⟩ 1 2 { method := "PUT", remoteAddr := "a" }
    (by rfl) (by rfl) (by rfl) (by rfl) (by rfl) (by rfl)
    (by decide) (by decide) (by rfl) (by rfl) (by rfl)

end AutomationApi
